import Mathlib

/-!
Verification of the pinboard-to-raindrop bookmark converter (src/main.rs).

The development shallowly embeds the Rust source: the record types, the
per-record transform (timestamp validation, description cleaning, tag
augmentation), the fetch classification, the success/failure partition
with its printed statistics, and the tabular writer. Strings are Lean
strings; the string algorithms from the Rust standard library (lines,
trim, join) are rendered as executable functions on character lists.
-/

namespace P2R

/-- Source record, deserialized from the fetch response
(struct PinboardBookmark, fields in source order; the serde renames are
modelled by deserializePinboard below). -/
structure PinboardBookmark where
  url : String
  title : String
  created : String
  description : String
  tags : String
deriving DecidableEq, Repr

/-- Destination record (struct RaindropBookmark, fields in source order,
which is also the serialized column order). -/
structure RaindropBookmark where
  url : String
  folder : String
  title : String
  description : String
  tags : String
  created : String
deriving DecidableEq, Repr

/-- The run configuration handed to the pipeline (struct TransformProps). -/
structure TransformProps where
  pinboard_token : String
  raindrop_folder : String
  user_tags : Option String
  clean_flag : Bool

/-- The single per-record failure kind: chrono rejecting the created string
(the error returned through the question mark in into_raindrop). -/
inductive TransformError where
  | invalidTimestamp
deriving DecidableEq, Repr

/-- Fetch-stage failure kinds of pb_fetch: HTTP 500 (token likely invalid),
any other non-200 status carrying the status code, and a body that does not
deserialize as the expected JSON array. -/
inductive FetchError where
  | invalidToken
  | httpError (status : Nat)
  | parseError
deriving DecidableEq, Repr

/-! ## Character-level helpers (Rust standard library semantics) -/

/-- Unicode White_Space, the predicate behind Rust char::is_whitespace,
hence behind str::trim. -/
def isRustWhitespace (c : Char) : Bool :=
  c.toNat = 0x9 || c.toNat = 0xA || c.toNat = 0xB || c.toNat = 0xC ||
  c.toNat = 0xD || c.toNat = 0x20 || c.toNat = 0x85 || c.toNat = 0xA0 ||
  c.toNat = 0x1680 || (0x2000 ≤ c.toNat && c.toNat ≤ 0x200A) ||
  c.toNat = 0x2028 || c.toNat = 0x2029 || c.toNat = 0x202F ||
  c.toNat = 0x205F || c.toNat = 0x3000

/-- Split a character list at every occurrence of the separator, keeping
empty segments (Rust str::split on a char pattern). A separator opens a
fresh empty segment; any other character is prepended to the first segment
of the split of the remainder (which is never the empty list). -/
def splitOnChar (sep : Char) : List Char → List (List Char)
  | [] => [[]]
  | c :: cs =>
    if c = sep then [] :: splitOnChar sep cs
    else (c :: (splitOnChar sep cs).headD []) :: (splitOnChar sep cs).tail

/-- Drop the final empty segment, turning str::split into
str::split_terminator: a trailing separator yields no extra segment. -/
def dropTrailingEmpty (segs : List (List Char)) : List (List Char) :=
  if segs.getLast? = some [] then segs.dropLast else segs

/-- Remove one leading carriage return if present. -/
def dropLeadingCR : List Char → List Char
  | [] => []
  | c :: t => if c = '\r' then t else c :: t

/-- Remove one trailing carriage return if present, as the mapping step of
Rust str::lines does on each segment. -/
def stripTrailingCR (l : List Char) : List Char :=
  (dropLeadingCR l.reverse).reverse

/-- Rust str::lines: split at every newline, a final newline terminating
rather than separating, then strip one trailing carriage return from each
segment. -/
def rustLines (s : String) : List (List Char) :=
  (dropTrailingEmpty (splitOnChar '\n' s.data)).map stripTrailingCR

/-- Remove trailing whitespace (Rust str::trim_end). -/
def trimRight (l : List Char) : List Char :=
  (l.reverse.dropWhile isRustWhitespace).reverse

/-- Rust str::trim: remove leading and trailing whitespace. -/
def rustTrim (l : List Char) : List Char :=
  (trimRight l).dropWhile isRustWhitespace

/-- Rust slice join with a single-space separator. -/
def joinWithSpace : List (List Char) → List Char
  | [] => []
  | [l] => l
  | l :: ls => l ++ ' ' :: joinWithSpace ls

/-! ## The chrono RFC 3339 parser, as a validity predicate

into_raindrop only uses DateTime::parse_from_rfc3339 for validation (the
parsed value is discarded), so the external chrono parser is modelled as a
boolean acceptor of the grammar it parses: full-date, a date/time separator
T, t or space, partial-time with optional fractional seconds, and a numeric
or Zulu offset, with calendar range checks. -/

/-- Numeric value of a decimal digit character. -/
def digitVal (c : Char) : Nat := c.toNat - 48

/-- Proleptic Gregorian leap-year rule, as used by chrono's calendar
validation. -/
def isLeapYear (y : Nat) : Bool :=
  y % 4 = 0 && (y % 100 ≠ 0 || y % 400 = 0)

/-- Day count of a month, February depending on the leap-year rule. -/
def daysInMonth (y m : Nat) : Nat :=
  match m with
  | 1 => 31 | 2 => if isLeapYear y then 29 else 28 | 3 => 31 | 4 => 30
  | 5 => 31 | 6 => 30 | 7 => 31 | 8 => 31 | 9 => 30 | 10 => 31
  | 11 => 30 | 12 => 31
  | _ => 0

/-- Accept the offset part: Z or z, or a sign with two-digit hours, a colon
and two-digit minutes, the whole offset strictly below one day. Nothing may
follow the offset. -/
def parseOffset : List Char → Bool
  | ['Z'] => true
  | ['z'] => true
  | [sg, h1, h2, ':', m1, m2] =>
    (sg = '+' || sg = '-') && h1.isDigit && h2.isDigit &&
    m1.isDigit && m2.isDigit &&
    (digitVal m1 * 10 + digitVal m2 ≤ 59) &&
    ((digitVal h1 * 10 + digitVal h2) * 3600 +
      (digitVal m1 * 10 + digitVal m2) * 60 < 86400)
  | _ => false

/-- Consume an optional fractional-seconds part: a dot must be followed by
at least one digit; without a dot nothing is consumed. -/
def skipFraction : List Char → Option (List Char)
  | '.' :: rest =>
    if (rest.takeWhile Char.isDigit).isEmpty then none
    else some (rest.dropWhile Char.isDigit)
  | l => some l

/-- Acceptance of DateTime::parse_from_rfc3339: date, separator, time,
optional fraction, offset, with calendar and clock range checks (seconds
up to 60 for leap seconds). -/
def isValidRFC3339 (s : String) : Bool :=
  match s.data with
  | y1 :: y2 :: y3 :: y4 :: '-' :: mo1 :: mo2 :: '-' :: d1 :: d2 ::
    sep :: h1 :: h2 :: ':' :: mi1 :: mi2 :: ':' :: s1 :: s2 :: rest =>
    [y1, y2, y3, y4, mo1, mo2, d1, d2, h1, h2, mi1, mi2, s1, s2].all
      Char.isDigit &&
    (sep = 'T' || sep = 't' || sep = ' ') &&
    (let year := ((digitVal y1 * 10 + digitVal y2) * 10 + digitVal y3) * 10
        + digitVal y4
     let month := digitVal mo1 * 10 + digitVal mo2
     let day := digitVal d1 * 10 + digitVal d2
     1 ≤ month && month ≤ 12 && 1 ≤ day && day ≤ daysInMonth year month) &&
    digitVal h1 * 10 + digitVal h2 ≤ 23 &&
    digitVal mi1 * 10 + digitVal mi2 ≤ 59 &&
    digitVal s1 * 10 + digitVal s2 ≤ 60 &&
    (match skipFraction rest with
     | none => false
     | some r => parseOffset r)
  | _ => false

/-! ## The transform (impl PinboardBookmark) -/

/-- PinboardBookmark::tag: no user tags leaves the tag string unchanged;
user tags are joined after it with a single-space separator. -/
def tag (tags : String) (user_tags : Option String) : String :=
  match user_tags with
  | none => tags
  | some t => (joinWithSpace [tags.data, t.data]).asString

/-- PinboardBookmark::clean_description: split into lines, trim each line,
join the segments with single spaces. -/
def clean_description (desc : String) : String :=
  (joinWithSpace ((rustLines desc).map rustTrim)).asString

/-- PinboardBookmark::into_raindrop: validate the created timestamp
(failure is the only error exit), clean the description when the flag is
set, augment the tags, assign the folder, and copy url, title and created. -/
def into_raindrop (self : PinboardBookmark) (folder : String)
    (user_tags : Option String) (clean_flag : Bool) :
    Except TransformError RaindropBookmark :=
  if isValidRFC3339 self.created then
    Except.ok
      { url := self.url
        folder := folder
        title := self.title
        description :=
          if clean_flag then clean_description self.description
          else self.description
        tags := tag self.tags user_tags
        created := self.created }
  else Except.error TransformError.invalidTimestamp

/-! ## Deserialization renames (the serde attributes on PinboardBookmark) -/

/-- One object of the fetched JSON array, with the wire field names. -/
structure PinboardJson where
  href : String
  description : String
  time : String
  extended : String
  tags : String
deriving DecidableEq, Repr

/-- The serde rename mapping: href becomes url, the wire description
becomes the title, time becomes created, extended becomes the description. -/
def deserializePinboard (j : PinboardJson) : PinboardBookmark :=
  { url := j.href
    title := j.description
    created := j.time
    description := j.extended
    tags := j.tags }

/-! ## Fetch classification (pb_fetch)

The network boundary is abstracted as the observed HTTP response: the
status code and whether the body deserialized as the expected JSON array
of source records. pb_fetch classifies that observation exactly as the
Rust match on the status does. -/

/-- One observed HTTP response: status, and the deserialization outcome of
the body (none when the body does not parse as the schema). -/
structure HttpResponse where
  status : Nat
  body : Option (List PinboardBookmark)

/-- pb_fetch: 200 yields the parsed collection (a body that fails to parse
is a parse error), 500 yields the invalid-token error, and any other
status yields an error carrying the status code. -/
def pb_fetch (resp : HttpResponse) : Except FetchError (List PinboardBookmark) :=
  if resp.status = 200 then
    match resp.body with
    | some bms => Except.ok bms
    | none => Except.error FetchError.parseError
  else if resp.status = 500 then Except.error FetchError.invalidToken
  else Except.error (FetchError.httpError resp.status)

/-! ## Aggregation and reporting (raindrop, stats) -/

/-- True on a successful transform result (Result::is_ok, the partition
predicate). -/
def resultIsOk : Except TransformError RaindropBookmark → Bool
  | Except.ok _ => true
  | Except.error _ => false

/-- Iterator::partition: a single left-to-right pass pushing each element
onto the matching side, so both sides keep the original relative order. -/
def rustPartition {α : Type} (pred : α → Bool) : List α → List α × List α
  | [] => ([], [])
  | x :: xs =>
    match rustPartition pred xs with
    | (yes, no) => if pred x then (x :: yes, no) else (yes, x :: no)

/-- The two summary lines printed by stats, in print order: the success
count line, then the error count line. -/
def stats (n_ok n_error : Nat) : List String :=
  ["✓ " ++ toString n_ok ++ " bookmarks successfully processed",
   "✕ " ++ toString n_error ++ " bookmark processing errors "]

/-- The per-record transforms applied across one fetched collection, in
order. -/
def transformAll (bms : List PinboardBookmark) (p : TransformProps) :
    List (Except TransformError RaindropBookmark) :=
  bms.map (fun bm => into_raindrop bm p.raindrop_folder p.user_tags p.clean_flag)

/-- What the raindrop pipeline returns once the fetch has succeeded: the
valid partition it hands back, and the lines stats printed. -/
structure RaindropOutput where
  valid : List (Except TransformError RaindropBookmark)
  printed : List String
deriving Repr

/-- The fetched-collection part of raindrop: transform every record,
partition by success, print the two counts, return the valid side. -/
def raindropOk (bms : List PinboardBookmark) (p : TransformProps) : RaindropOutput :=
  match rustPartition resultIsOk (transformAll bms p) with
  | (valid, errors) => { valid := valid, printed := stats valid.length errors.length }

/-- raindrop: a fetch error propagates through the question mark before
any record is transformed or anything is printed; a fetched collection is
transformed, partitioned and reported. -/
def raindrop (fetched : Except FetchError (List PinboardBookmark))
    (p : TransformProps) : Except FetchError RaindropOutput :=
  match fetched with
  | Except.error e => Except.error e
  | Except.ok bms => Except.ok (raindropOk bms p)

/-! ## Writer and main -/

/-- Result::unwrap on one transform result: none models the abort of an
unwrap applied to an error value. -/
def exceptToOption : Except TransformError RaindropBookmark → Option RaindropBookmark
  | Except.ok bm => some bm
  | Except.error _ => none

/-- The map-unwrap step of main over the valid partition: all values when
every element is a success, none as soon as any unwrap would abort. -/
def unwrapAll : List (Except TransformError RaindropBookmark) →
    Option (List RaindropBookmark)
  | [] => some []
  | r :: rs =>
    match exceptToOption r, unwrapAll rs with
    | some bm, some bms => some (bm :: bms)
    | _, _ => none

/-- write_file, abstracted to the rows the csv writer emits: a header row
naming the destination fields in struct order, then one row per record
with the fields in the same order. -/
def write_file (data : List RaindropBookmark) : List (List String) :=
  ["url", "folder", "title", "description", "tags", "created"] ::
    data.map (fun r => [r.url, r.folder, r.title, r.description, r.tags, r.created])

/-- main after the fetch observation: run raindrop (a fetch error aborts
with no rows written), unwrap every valid result, and write the file; the
option is none when some unwrap would abort. -/
def mainRun (fetched : Except FetchError (List PinboardBookmark))
    (p : TransformProps) :
    Except FetchError (Option (List (List String)) × List String) :=
  match raindrop fetched p with
  | Except.error e => Except.error e
  | Except.ok out => Except.ok ((unwrapAll out.valid).map write_file, out.printed)

/-! ## The spec's wording of description cleaning -/

/-- Modelled from the spec: split the description into lines, trim each
line's leading and trailing whitespace (carriage returns included), and
join the segments with a single space. The trailing-carriage-return strip
that str::lines performs per segment is left out here, since trimming a
segment removes a trailing carriage return anyway; the equivalence with
clean_description is proved below. -/
def cleanDescriptionSpec (desc : String) : String :=
  (joinWithSpace ((dropTrailingEmpty (splitOnChar '\n' desc.data)).map rustTrim)).asString

/-! ## Helper lemmas -/

theorem asString_data (l : List Char) : (List.asString l).data = l := rfl

theorem resultIsOk_into_raindrop (bm : PinboardBookmark) (folder : String)
    (ut : Option String) (cf : Bool) :
    resultIsOk (into_raindrop bm folder ut cf) = isValidRFC3339 bm.created := by
  unfold into_raindrop
  cases h : isValidRFC3339 bm.created <;> simp [h, resultIsOk]

theorem into_raindrop_of_valid (bm : PinboardBookmark) (folder : String)
    (ut : Option String) (cf : Bool) (h : isValidRFC3339 bm.created = true) :
    into_raindrop bm folder ut cf = Except.ok
      { url := bm.url
        folder := folder
        title := bm.title
        description :=
          if cf then clean_description bm.description else bm.description
        tags := tag bm.tags ut
        created := bm.created } := by
  unfold into_raindrop
  rw [if_pos h]

theorem into_raindrop_of_invalid (bm : PinboardBookmark) (folder : String)
    (ut : Option String) (cf : Bool) (h : isValidRFC3339 bm.created = false) :
    into_raindrop bm folder ut cf = Except.error TransformError.invalidTimestamp := by
  unfold into_raindrop
  simp [h]

theorem rustPartition_eq_filter {α : Type} (pred : α → Bool) (l : List α) :
    rustPartition pred l = (l.filter pred, l.filter fun x => !pred x) := by
  induction l with
  | nil => rfl
  | cons x xs ih =>
    unfold rustPartition
    rw [ih]
    cases h : pred x <;> simp [List.filter_cons, h]

theorem dropWhile_dropLeadingCR (m : List Char) :
    List.dropWhile isRustWhitespace (dropLeadingCR m) =
      List.dropWhile isRustWhitespace m := by
  cases m with
  | nil => rfl
  | cons c t =>
    by_cases hc : c = '\r'
    · subst hc
      have hw : isRustWhitespace '\r' = true := rfl
      simp [dropLeadingCR, List.dropWhile_cons, hw]
    · simp [dropLeadingCR, hc]

theorem rustTrim_stripTrailingCR (l : List Char) :
    rustTrim (stripTrailingCR l) = rustTrim l := by
  unfold rustTrim trimRight stripTrailingCR
  rw [List.reverse_reverse, dropWhile_dropLeadingCR]

theorem clean_description_eq_spec (s : String) :
    clean_description s = cleanDescriptionSpec s := by
  unfold clean_description cleanDescriptionSpec rustLines
  rw [List.map_map]
  have hcomp : rustTrim ∘ stripTrailingCR = rustTrim :=
    funext fun l => rustTrim_stripTrailingCR l
  rw [hcomp]

theorem splitOnChar_ne_nil (sep : Char) (l : List Char) :
    splitOnChar sep l ≠ [] := by
  cases l with
  | nil => simp [splitOnChar]
  | cons c cs =>
    by_cases hc : c = sep <;> simp [splitOnChar, hc]

theorem splitOnChar_cons_of_ne (sep c : Char) (cs s : List Char)
    (ss : List (List Char)) (hc : ¬c = sep)
    (hsp : splitOnChar sep cs = s :: ss) :
    splitOnChar sep (c :: cs) = (c :: s) :: ss := by
  simp [splitOnChar, hc, hsp]

theorem splitOnChar_not_mem (sep : Char) (l : List Char) :
    ∀ seg ∈ splitOnChar sep l, sep ∉ seg := by
  induction l with
  | nil =>
    intro seg hseg
    rw [show splitOnChar sep [] = [[]] from rfl, List.mem_singleton] at hseg
    subst hseg
    exact List.not_mem_nil sep
  | cons c cs ih =>
    intro seg hseg
    rcases hsp : splitOnChar sep cs with _ | ⟨s, ss⟩
    · exact absurd hsp (splitOnChar_ne_nil sep cs)
    · have hs : s ∈ splitOnChar sep cs := by
        rw [hsp]; exact List.mem_cons_self s ss
      by_cases hc : c = sep
      · rw [show splitOnChar sep (c :: cs) = [] :: splitOnChar sep cs from by
          simp [splitOnChar, hc]] at hseg
        rcases List.mem_cons.1 hseg with rfl | hmem
        · exact List.not_mem_nil sep
        · exact ih seg hmem
      · rw [splitOnChar_cons_of_ne sep c cs s ss hc hsp] at hseg
        rcases List.mem_cons.1 hseg with rfl | hmem
        · intro hmem2
          rcases List.mem_cons.1 hmem2 with heq | hmem3
          · exact hc heq.symm
          · exact ih s hs hmem3
        · refine ih seg ?_
          rw [hsp]
          exact List.mem_cons_of_mem s hmem

theorem splitOnChar_chars_subset (sep : Char) (l : List Char) :
    ∀ seg ∈ splitOnChar sep l, ∀ c ∈ seg, c ∈ l := by
  induction l with
  | nil =>
    intro seg hseg c hc
    rw [show splitOnChar sep [] = [[]] from rfl, List.mem_singleton] at hseg
    subst hseg
    exact absurd hc (List.not_mem_nil c)
  | cons x xs ih =>
    intro seg hseg c hc
    rcases hsp : splitOnChar sep xs with _ | ⟨s, ss⟩
    · exact absurd hsp (splitOnChar_ne_nil sep xs)
    · have hs : s ∈ splitOnChar sep xs := by
        rw [hsp]; exact List.mem_cons_self s ss
      by_cases hx : x = sep
      · rw [show splitOnChar sep (x :: xs) = [] :: splitOnChar sep xs from by
          simp [splitOnChar, hx]] at hseg
        rcases List.mem_cons.1 hseg with rfl | hmem
        · exact absurd hc (List.not_mem_nil c)
        · exact List.mem_cons_of_mem x (ih seg hmem c hc)
      · rw [splitOnChar_cons_of_ne sep x xs s ss hx hsp] at hseg
        rcases List.mem_cons.1 hseg with rfl | hmem
        · rcases List.mem_cons.1 hc with rfl | hc2
          · exact List.mem_cons_self c xs
          · exact List.mem_cons_of_mem x (ih s hs c hc2)
        · refine List.mem_cons_of_mem x (ih seg ?_ c hc)
          rw [hsp]
          exact List.mem_cons_of_mem s hmem

theorem mem_dropTrailingEmpty (segs : List (List Char)) (seg : List Char)
    (h : seg ∈ dropTrailingEmpty segs) : seg ∈ segs := by
  unfold dropTrailingEmpty at h
  by_cases hl : segs.getLast? = some []
  · rw [if_pos hl] at h
    exact List.dropLast_subset segs h
  · rwa [if_neg hl] at h

theorem mem_dropLeadingCR (m : List Char) (c : Char)
    (h : c ∈ dropLeadingCR m) : c ∈ m := by
  cases m with
  | nil => exact absurd h (List.not_mem_nil c)
  | cons x t =>
    by_cases hx : x = '\r'
    · rw [show dropLeadingCR (x :: t) = t from by simp [dropLeadingCR, hx]] at h
      exact List.mem_cons_of_mem x h
    · rwa [show dropLeadingCR (x :: t) = x :: t from by
        simp [dropLeadingCR, hx]] at h

theorem mem_stripTrailingCR (l : List Char) (c : Char)
    (h : c ∈ stripTrailingCR l) : c ∈ l := by
  unfold stripTrailingCR at h
  rw [List.mem_reverse] at h
  have h2 := mem_dropLeadingCR l.reverse c h
  rwa [List.mem_reverse] at h2

theorem mem_rustTrim (l : List Char) (c : Char) (h : c ∈ rustTrim l) : c ∈ l := by
  unfold rustTrim trimRight at h
  have h1 := (List.dropWhile_sublist _).subset h
  rw [List.mem_reverse] at h1
  have h2 := (List.dropWhile_sublist _).subset h1
  rwa [List.mem_reverse] at h2

theorem mem_joinWithSpace (ls : List (List Char)) (c : Char)
    (h : c ∈ joinWithSpace ls) : c = ' ' ∨ ∃ l ∈ ls, c ∈ l := by
  induction ls with
  | nil => exact absurd h (List.not_mem_nil c)
  | cons l ls ih =>
    cases ls with
    | nil =>
      right
      exact ⟨l, List.mem_cons_self l [], h⟩
    | cons l2 ls2 =>
      have hj : joinWithSpace (l :: l2 :: ls2) =
          l ++ ' ' :: joinWithSpace (l2 :: ls2) := rfl
      rw [hj] at h
      rcases List.mem_append.1 h with h1 | h2
      · right
        exact ⟨l, List.mem_cons_self l _, h1⟩
      · rcases List.mem_cons.1 h2 with rfl | h3
        · left; rfl
        · rcases ih h3 with h4 | ⟨l3, hl3, hc3⟩
          · left; exact h4
          · right
            exact ⟨l3, List.mem_cons_of_mem l hl3, hc3⟩

theorem mem_rustLines_chars (s : String) (l : List Char) (hl : l ∈ rustLines s) :
    ∀ c ∈ l, c ∈ s.data := by
  intro c hc
  unfold rustLines at hl
  rcases List.mem_map.1 hl with ⟨l1, hl1, rfl⟩
  have hc1 : c ∈ l1 := mem_stripTrailingCR l1 c hc
  exact splitOnChar_chars_subset '\n' s.data l1
    (mem_dropTrailingEmpty _ l1 hl1) c hc1

theorem clean_description_no_newline (s : String) :
    ∀ c ∈ (clean_description s).data, c ≠ '\n' := by
  intro c hc
  unfold clean_description at hc
  rw [asString_data] at hc
  rcases mem_joinWithSpace _ c hc with h1 | ⟨l, hl, hcl⟩
  · subst h1; decide
  · rcases List.mem_map.1 hl with ⟨l0, hl0, rfl⟩
    have hc0 : c ∈ l0 := mem_rustTrim l0 c hcl
    unfold rustLines at hl0
    rcases List.mem_map.1 hl0 with ⟨l1, hl1, rfl⟩
    have hc1 : c ∈ l1 := mem_stripTrailingCR l1 c hc0
    intro heq
    subst heq
    exact splitOnChar_not_mem '\n' s.data l1
      (mem_dropTrailingEmpty _ l1 hl1) hc1

theorem rustTrim_eq_nil (l : List Char)
    (h : ∀ c ∈ l, isRustWhitespace c = true) : rustTrim l = [] := by
  unfold rustTrim trimRight
  have h1 : ∀ c ∈ l.reverse, isRustWhitespace c = true :=
    fun c hc => h c (List.mem_reverse.1 hc)
  rw [List.dropWhile_eq_nil_iff.2 h1]
  rfl

theorem clean_description_all_spaces (s : String)
    (h : ∀ c ∈ s.data, isRustWhitespace c = true) :
    ∀ c ∈ (clean_description s).data, c = ' ' := by
  intro c hc
  unfold clean_description at hc
  rw [asString_data] at hc
  rcases mem_joinWithSpace _ c hc with h1 | ⟨l, hl, hcl⟩
  · exact h1
  · rcases List.mem_map.1 hl with ⟨l0, hl0, rfl⟩
    have hall : ∀ c2 ∈ l0, isRustWhitespace c2 = true :=
      fun c2 hc2 => h c2 (mem_rustLines_chars s l0 hl0 c2 hc2)
    rw [rustTrim_eq_nil l0 hall] at hcl
    exact absurd hcl (List.not_mem_nil c)

theorem joinWithSpace_replicate_nil (n : Nat) :
    joinWithSpace (List.replicate n ([] : List Char)) =
      List.replicate (n - 1) ' ' := by
  induction n with
  | zero => rfl
  | succ n ih =>
    cases n with
    | zero => rfl
    | succ m =>
      have h3 : joinWithSpace (List.replicate (m + 2) ([] : List Char)) =
          ' ' :: joinWithSpace (List.replicate (m + 1) ([] : List Char)) := rfl
      rw [h3, ih]
      rfl

theorem map_rustTrim_eq_replicate (segs : List (List Char))
    (h : ∀ seg ∈ segs, rustTrim seg = []) :
    segs.map rustTrim = List.replicate segs.length ([] : List Char) := by
  induction segs with
  | nil => rfl
  | cons s ss ih =>
    rw [List.map_cons, h s (List.mem_cons_self s ss),
      ih (fun x hx => h x (List.mem_cons_of_mem s hx))]
    rfl

theorem clean_description_whitespace_count (desc : String)
    (h : ∀ c ∈ desc.data, isRustWhitespace c = true) :
    clean_description desc =
      (List.replicate ((rustLines desc).length - 1) ' ').asString := by
  unfold clean_description
  congr 1
  rw [map_rustTrim_eq_replicate _ (fun seg hseg =>
      rustTrim_eq_nil seg (fun c hc =>
        h c (mem_rustLines_chars desc seg hseg c hc))),
    joinWithSpace_replicate_nil]

theorem unwrapAll_of_all_ok (rs : List (Except TransformError RaindropBookmark))
    (h : ∀ r ∈ rs, resultIsOk r = true) : ∃ l, unwrapAll rs = some l := by
  induction rs with
  | nil => exact ⟨[], rfl⟩
  | cons r rs ih =>
    rcases ih (fun x hx => h x (List.mem_cons_of_mem r hx)) with ⟨l, hl⟩
    have hr := h r (List.mem_cons_self r rs)
    cases r with
    | ok bm => exact ⟨bm :: l, by simp [unwrapAll, exceptToOption, hl]⟩
    | error e => simp [resultIsOk] at hr

theorem unwrapAll_length (rs : List (Except TransformError RaindropBookmark))
    (l : List RaindropBookmark) (h : unwrapAll rs = some l) :
    l.length = rs.length := by
  induction rs generalizing l with
  | nil =>
    unfold unwrapAll at h
    injection h with h
    subst h
    rfl
  | cons r rs ih =>
    unfold unwrapAll at h
    cases hr : exceptToOption r with
    | none => rw [hr] at h; cases h
    | some bm =>
      rw [hr] at h
      cases hrs : unwrapAll rs with
      | none => rw [hrs] at h; cases h
      | some bms =>
        rw [hrs] at h
        injection h with h
        subst h
        simp [ih bms hrs]

theorem tag_none (tags : String) : tag tags none = tags := rfl

theorem tag_some (tags t : String) : tag tags (some t) = tags ++ " " ++ t := by
  apply String.ext
  show (joinWithSpace [tags.data, t.data]).asString.data = _
  rw [asString_data, String.data_append, String.data_append]
  show tags.data ++ ' ' :: t.data = tags.data ++ (" " : String).data ++ t.data
  have hsp : (" " : String).data = [' '] := rfl
  rw [hsp, List.append_assoc]
  rfl

theorem raindropOk_valid (bms : List PinboardBookmark) (p : TransformProps) :
    (raindropOk bms p).valid = (transformAll bms p).filter resultIsOk := by
  unfold raindropOk
  rw [rustPartition_eq_filter]

theorem raindropOk_printed (bms : List PinboardBookmark) (p : TransformProps) :
    (raindropOk bms p).printed =
      stats ((transformAll bms p).filter resultIsOk).length
        ((transformAll bms p).filter (fun r => !resultIsOk r)).length := by
  unfold raindropOk
  rw [rustPartition_eq_filter]

theorem filter_transformAll_ok (bms : List PinboardBookmark) (p : TransformProps) :
    ((transformAll bms p).filter resultIsOk).length =
      (bms.filter (fun bm => isValidRFC3339 bm.created)).length := by
  unfold transformAll
  rw [List.filter_map, List.length_map]
  congr 1
  apply List.filter_congr
  intro bm _
  simp [Function.comp, resultIsOk_into_raindrop]

theorem filter_transformAll_err (bms : List PinboardBookmark) (p : TransformProps) :
    ((transformAll bms p).filter (fun r => !resultIsOk r)).length =
      (bms.filter (fun bm => !isValidRFC3339 bm.created)).length := by
  unfold transformAll
  rw [List.filter_map, List.length_map]
  congr 1
  apply List.filter_congr
  intro bm _
  simp [Function.comp, resultIsOk_into_raindrop]

theorem valid_all_ok (bms : List PinboardBookmark) (p : TransformProps) :
    ∀ r ∈ (raindropOk bms p).valid, resultIsOk r = true := by
  intro r hr
  rw [raindropOk_valid] at hr
  exact List.of_mem_filter hr

/-! ## The claims -/

/-- C1, counterexample: on the round-trip record the transform does
succeed, but the cleaned description carries a trailing space (the final
carriage-return-only line trims to an empty segment that the single-space
join still separates), so the produced record differs from the one the
claim names. -/
theorem claim1_counterexample :
    into_raindrop
        { url := "url", title := "title", created := "2017-04-03T15:59:39Z",
          description :=
            "Fusce ex ligula, auctor et\nvestibulum eu, \r\nporttitor at dolor.\n\r",
          tags := "a b c" }
        "Imported" (some "@pinboard") true =
      Except.ok
        { url := "url", folder := "Imported", title := "title",
          description :=
            "Fusce ex ligula, auctor et vestibulum eu, porttitor at dolor. ",
          tags := "a b c @pinboard", created := "2017-04-03T15:59:39Z" } ∧
    ({ url := "url", folder := "Imported", title := "title",
       description :=
         "Fusce ex ligula, auctor et vestibulum eu, porttitor at dolor. ",
       tags := "a b c @pinboard", created := "2017-04-03T15:59:39Z" } :
        RaindropBookmark) ≠
      { url := "url", folder := "Imported", title := "title",
        description :=
          "Fusce ex ligula, auctor et vestibulum eu, porttitor at dolor.",
        tags := "a b c @pinboard", created := "2017-04-03T15:59:39Z" } :=
  ⟨rfl, by decide⟩

/-- C1, amended: the round-trip transform succeeds and produces exactly the
destination record whose cleaned description ends in one trailing space;
all other fields are as the claim states. -/
theorem claim1_round_trip :
    into_raindrop
        { url := "url", title := "title", created := "2017-04-03T15:59:39Z",
          description :=
            "Fusce ex ligula, auctor et\nvestibulum eu, \r\nporttitor at dolor.\n\r",
          tags := "a b c" }
        "Imported" (some "@pinboard") true =
      Except.ok
        { url := "url", folder := "Imported", title := "title",
          description :=
            "Fusce ex ligula, auctor et vestibulum eu, porttitor at dolor. ",
          tags := "a b c @pinboard", created := "2017-04-03T15:59:39Z" } := rfl

/-- C2: with cleaning enabled the output description is the source
description split into lines, each line trimmed of leading and trailing
whitespace (carriage returns included), joined with single spaces — stated
against the spec-worded cleaning — and contains no newline; with cleaning
disabled the output description is the input description unchanged. -/
theorem claim2_description_cleaning (bm : PinboardBookmark) (folder : String)
    (ut : Option String) (h : isValidRFC3339 bm.created = true) :
    ∃ rT rF,
      into_raindrop bm folder ut true = Except.ok rT ∧
      rT.description = cleanDescriptionSpec bm.description ∧
      (∀ c ∈ rT.description.data, c ≠ '\n') ∧
      into_raindrop bm folder ut false = Except.ok rF ∧
      rF.description = bm.description := by
  refine ⟨_, _, into_raindrop_of_valid bm folder ut true h, ?_, ?_,
    into_raindrop_of_valid bm folder ut false h, rfl⟩
  · exact clean_description_eq_spec bm.description
  · exact clean_description_no_newline bm.description

/-- C2 witness at a concrete record containing embedded line breaks. -/
theorem claim2_witness :
    ∃ rT rF,
      into_raindrop
          { url := "url", title := "title", created := "2017-04-03T15:59:39Z",
            description := " a \r\n b ", tags := "t" } "F" none true =
        Except.ok rT ∧
      rT.description =
        cleanDescriptionSpec
          ({ url := "url", title := "title",
             created := "2017-04-03T15:59:39Z",
             description := " a \r\n b ", tags := "t" } :
            PinboardBookmark).description ∧
      (∀ c ∈ rT.description.data, c ≠ '\n') ∧
      into_raindrop
          { url := "url", title := "title", created := "2017-04-03T15:59:39Z",
            description := " a \r\n b ", tags := "t" } "F" none false =
        Except.ok rF ∧
      rF.description =
        ({ url := "url", title := "title",
           created := "2017-04-03T15:59:39Z",
           description := " a \r\n b ", tags := "t" } :
          PinboardBookmark).description :=
  claim2_description_cleaning _ "F" none (by decide)

/-- C3, counterexample: the description consisting of space, newline, space
is whitespace-only, yet cleaning yields a single space, not the empty
string (two lines both trim to empty segments, and the join still inserts
one separator between them). -/
theorem claim3_counterexample :
    (" \n " : String).data.all isRustWhitespace = true ∧
    clean_description " \n " ≠ "" :=
  ⟨by decide, by decide⟩

/-- C3, amended: with cleaning enabled, a description consisting only of
whitespace cleans to exactly the string of k minus one spaces, where k is
its number of line segments (so the empty string precisely when there is
at most one line segment), every character of the result is a space, and
the transform never fails on account of the description — its success is
exactly the validity of the created timestamp. -/
theorem claim3_whitespace_only (desc : String)
    (h : ∀ c ∈ desc.data, isRustWhitespace c = true) :
    clean_description desc =
      (List.replicate ((rustLines desc).length - 1) ' ').asString ∧
    (∀ c ∈ (clean_description desc).data, c = ' ') ∧
    ∀ (bm : PinboardBookmark) (folder : String) (ut : Option String)
      (cf : Bool),
      resultIsOk (into_raindrop bm folder ut cf) = isValidRFC3339 bm.created :=
  ⟨clean_description_whitespace_count desc h,
   clean_description_all_spaces desc h,
   fun bm folder ut cf => resultIsOk_into_raindrop bm folder ut cf⟩

/-- C3 witness at the concrete whitespace-only description of two line
segments, whose cleaned form is therefore the one-space string. -/
theorem claim3_witness :
    clean_description " \n " =
      (List.replicate ((rustLines " \n ").length - 1) ' ').asString ∧
    (∀ c ∈ (clean_description " \n ").data, c = ' ') ∧
    ∀ (bm : PinboardBookmark) (folder : String) (ut : Option String)
      (cf : Bool),
      resultIsOk (into_raindrop bm folder ut cf) = isValidRFC3339 bm.created :=
  claim3_whitespace_only " \n " (by decide)

/-- C4: whenever the created string is accepted by the RFC 3339 parser the
transform succeeds and copies the created string into the output verbatim. -/
theorem claim4_created_verbatim (bm : PinboardBookmark) (folder : String)
    (ut : Option String) (cf : Bool) (h : isValidRFC3339 bm.created = true) :
    ∃ r, into_raindrop bm folder ut cf = Except.ok r ∧
      r.created = bm.created :=
  ⟨_, into_raindrop_of_valid bm folder ut cf h, rfl⟩

/-- C4 witness at a concrete valid timestamp. -/
theorem claim4_witness :
    ∃ r,
      into_raindrop
          { url := "url", title := "title", created := "2017-04-03T15:59:39Z",
            description := "d", tags := "t" } "Imported" none false =
        Except.ok r ∧
      r.created =
        ({ url := "url", title := "title",
           created := "2017-04-03T15:59:39Z", description := "d",
           tags := "t" } : PinboardBookmark).created :=
  claim4_created_verbatim _ "Imported" none false (by decide)

/-- C5: a created string the parser rejects makes the transform return the
invalid-timestamp error; transform success is exactly timestamp validity
(no other per-record failure mode); a fetched collection never aborts the
run (raindrop returns Ok); the valid partition is the ordered sequence of
successes; and the printed counts are the number of valid and of invalid
records. -/
theorem claim5_invalid_timestamp (bms : List PinboardBookmark)
    (p : TransformProps) (bm : PinboardBookmark) (folder : String)
    (ut : Option String) (cf : Bool)
    (h : isValidRFC3339 bm.created = false) :
    into_raindrop bm folder ut cf =
      Except.error TransformError.invalidTimestamp ∧
    (∀ (bm2 : PinboardBookmark) (f2 : String) (ut2 : Option String)
      (cf2 : Bool),
      resultIsOk (into_raindrop bm2 f2 ut2 cf2) =
        isValidRFC3339 bm2.created) ∧
    raindrop (Except.ok bms) p = Except.ok (raindropOk bms p) ∧
    (raindropOk bms p).valid = (transformAll bms p).filter resultIsOk ∧
    (raindropOk bms p).printed =
      stats (bms.filter (fun b => isValidRFC3339 b.created)).length
        (bms.filter (fun b => !isValidRFC3339 b.created)).length := by
  refine ⟨into_raindrop_of_invalid bm folder ut cf h,
    fun bm2 f2 ut2 cf2 => resultIsOk_into_raindrop bm2 f2 ut2 cf2,
    rfl, raindropOk_valid bms p, ?_⟩
  rw [raindropOk_printed, filter_transformAll_ok, filter_transformAll_err]

/-- C5 witness at the concrete invalid date from the source's test. -/
theorem claim5_witness :
    into_raindrop
        { url := "url", title := "title", created := "2017/04/03",
          description := "d", tags := "t" } "Imported" none false =
      Except.error TransformError.invalidTimestamp ∧
    (∀ (bm2 : PinboardBookmark) (f2 : String) (ut2 : Option String)
      (cf2 : Bool),
      resultIsOk (into_raindrop bm2 f2 ut2 cf2) =
        isValidRFC3339 bm2.created) ∧
    raindrop (Except.ok [])
        { pinboard_token := "tok", raindrop_folder := "F",
          user_tags := none, clean_flag := false } =
      Except.ok (raindropOk []
        { pinboard_token := "tok", raindrop_folder := "F",
          user_tags := none, clean_flag := false }) ∧
    (raindropOk []
        { pinboard_token := "tok", raindrop_folder := "F",
          user_tags := none, clean_flag := false }).valid =
      (transformAll []
        { pinboard_token := "tok", raindrop_folder := "F",
          user_tags := none, clean_flag := false }).filter resultIsOk ∧
    (raindropOk []
        { pinboard_token := "tok", raindrop_folder := "F",
          user_tags := none, clean_flag := false }).printed =
      stats (List.filter (fun b => isValidRFC3339 b.created)
          ([] : List PinboardBookmark)).length
        (List.filter (fun b => !isValidRFC3339 b.created)
          ([] : List PinboardBookmark)).length :=
  claim5_invalid_timestamp [] _ _ "Imported" none false (by decide)

/-- C6: tag augmentation is pure concatenation — with a user tag string the
output tags are the source tags, one space, the user tags; without one the
output tags are the source tags unchanged — both at the tag helper and in
the transformed record. -/
theorem claim6_tag_concatenation (bm : PinboardBookmark) (folder : String)
    (u : String) (cf : Bool) (h : isValidRFC3339 bm.created = true) :
    tag bm.tags (some u) = bm.tags ++ " " ++ u ∧
    tag bm.tags none = bm.tags ∧
    (∃ r, into_raindrop bm folder (some u) cf = Except.ok r ∧
      r.tags = bm.tags ++ " " ++ u) ∧
    ∃ r, into_raindrop bm folder none cf = Except.ok r ∧
      r.tags = bm.tags :=
  ⟨tag_some bm.tags u, tag_none bm.tags,
   ⟨_, into_raindrop_of_valid bm folder (some u) cf h, tag_some bm.tags u⟩,
   ⟨_, into_raindrop_of_valid bm folder none cf h, tag_none bm.tags⟩⟩

/-- C6 witness at the concrete tags from the spec's example. -/
theorem claim6_witness :
    tag "a b c" (some "@pinboard") = "a b c" ++ " " ++ "@pinboard" ∧
    tag "a b c" none = "a b c" ∧
    (∃ r,
      into_raindrop
          { url := "url", title := "title", created := "2017-04-03T15:59:39Z",
            description := "d", tags := "a b c" } "F" (some "@pinboard")
          true =
        Except.ok r ∧
      r.tags = "a b c" ++ " " ++ "@pinboard") ∧
    ∃ r,
      into_raindrop
          { url := "url", title := "title", created := "2017-04-03T15:59:39Z",
            description := "d", tags := "a b c" } "F" none true =
        Except.ok r ∧
      r.tags = "a b c" :=
  claim6_tag_concatenation
    { url := "url", title := "title", created := "2017-04-03T15:59:39Z",
      description := "d", tags := "a b c" } "F" "@pinboard" true (by decide)

/-- C7: the deserialization renames map the wire field href to url, the
wire description to the title, time to created and extended to the
description, and a successful transform carries each through (the
description possibly cleaned). -/
theorem claim7_field_mapping (j : PinboardJson) (folder : String)
    (ut : Option String) (cf : Bool) (h : isValidRFC3339 j.time = true) :
    ∃ r, into_raindrop (deserializePinboard j) folder ut cf = Except.ok r ∧
      r.url = j.href ∧ r.title = j.description ∧ r.created = j.time ∧
      r.description =
        (if cf then clean_description j.extended else j.extended) ∧
      r.tags = tag j.tags ut :=
  ⟨_, into_raindrop_of_valid (deserializePinboard j) folder ut cf h,
    rfl, rfl, rfl, rfl, rfl⟩

/-- C7 witness at a concrete wire record. -/
theorem claim7_witness :
    ∃ r,
      into_raindrop
          (deserializePinboard
            { href := "u", description := "ttl",
              time := "2017-04-03T15:59:39Z", extended := "ext",
              tags := "tg" }) "F" none false =
        Except.ok r ∧
      r.url = "u" ∧ r.title = "ttl" ∧ r.created = "2017-04-03T15:59:39Z" ∧
      r.description = (if false then clean_description "ext" else "ext") ∧
      r.tags = tag "tg" none :=
  claim7_field_mapping
    { href := "u", description := "ttl", time := "2017-04-03T15:59:39Z",
      extended := "ext", tags := "tg" } "F" none false (by decide)

/-- C8: the fetch classification — 200 with a parsing body yields the
collection, 500 yields the invalid-token error, any other status yields the
error carrying that status — and a fetch error propagates out of raindrop
and out of the whole run before any record is transformed or any row is
produced. -/
theorem claim8_fetch_classification (bms : List PinboardBookmark)
    (body : Option (List PinboardBookmark)) (s : Nat) (e : FetchError)
    (p : TransformProps) (h200 : s ≠ 200) (h500 : s ≠ 500) :
    pb_fetch { status := 200, body := some bms } = Except.ok bms ∧
    pb_fetch { status := 500, body := body } =
      Except.error FetchError.invalidToken ∧
    pb_fetch { status := s, body := body } =
      Except.error (FetchError.httpError s) ∧
    raindrop (Except.error e) p = Except.error e ∧
    mainRun (Except.error e) p = Except.error e := by
  refine ⟨rfl, rfl, ?_, rfl, rfl⟩
  simp [pb_fetch, h200, h500]

/-- C8 witness at the concrete status 404. -/
theorem claim8_witness :
    pb_fetch { status := 200, body := some [] } = Except.ok [] ∧
    pb_fetch { status := 500, body := none } =
      Except.error FetchError.invalidToken ∧
    pb_fetch { status := 404, body := none } =
      Except.error (FetchError.httpError 404) ∧
    raindrop (Except.error FetchError.invalidToken)
        { pinboard_token := "t", raindrop_folder := "F", user_tags := none,
          clean_flag := false } =
      Except.error FetchError.invalidToken ∧
    mainRun (Except.error FetchError.invalidToken)
        { pinboard_token := "t", raindrop_folder := "F", user_tags := none,
          clean_flag := false } =
      Except.error FetchError.invalidToken :=
  claim8_fetch_classification [] none 404 FetchError.invalidToken _
    (by decide) (by decide)

/-- C9: the aggregator hands back the successful results in their original
relative order, always prints exactly the two summary lines carrying the
success and failure counts, and the written file is the header row
followed by one row per successful record — so exactly that many data
rows. -/
theorem claim9_reporter (bms : List PinboardBookmark) (p : TransformProps)
    (l : List RaindropBookmark)
    (hl : unwrapAll (raindropOk bms p).valid = some l) :
    (raindropOk bms p).valid = (transformAll bms p).filter resultIsOk ∧
    (raindropOk bms p).printed =
      stats ((transformAll bms p).filter resultIsOk).length
        ((transformAll bms p).filter (fun r => !resultIsOk r)).length ∧
    (raindropOk bms p).printed.length = 2 ∧
    write_file l =
      ["url", "folder", "title", "description", "tags", "created"] ::
        l.map (fun r =>
          [r.url, r.folder, r.title, r.description, r.tags, r.created]) ∧
    l.length = ((transformAll bms p).filter resultIsOk).length := by
  refine ⟨raindropOk_valid bms p, raindropOk_printed bms p, ?_, rfl, ?_⟩
  · rw [raindropOk_printed]
    rfl
  · have hlen := unwrapAll_length _ l hl
    rw [hlen, raindropOk_valid]

/-- C9 witness at a concrete run of one valid and one invalid record. -/
theorem claim9_witness :
    (raindropOk
        [{ url := "u1", title := "t1", created := "2017-04-03T15:59:39Z",
           description := "d1", tags := "a" },
         { url := "u2", title := "t2", created := "2017/04/03",
           description := "d2", tags := "b" }]
        { pinboard_token := "tok", raindrop_folder := "Imported",
          user_tags := some "@pb", clean_flag := false }).valid =
      (transformAll
        [{ url := "u1", title := "t1", created := "2017-04-03T15:59:39Z",
           description := "d1", tags := "a" },
         { url := "u2", title := "t2", created := "2017/04/03",
           description := "d2", tags := "b" }]
        { pinboard_token := "tok", raindrop_folder := "Imported",
          user_tags := some "@pb", clean_flag := false }).filter
        resultIsOk ∧
    (raindropOk
        [{ url := "u1", title := "t1", created := "2017-04-03T15:59:39Z",
           description := "d1", tags := "a" },
         { url := "u2", title := "t2", created := "2017/04/03",
           description := "d2", tags := "b" }]
        { pinboard_token := "tok", raindrop_folder := "Imported",
          user_tags := some "@pb", clean_flag := false }).printed =
      stats
        ((transformAll
          [{ url := "u1", title := "t1", created := "2017-04-03T15:59:39Z",
             description := "d1", tags := "a" },
           { url := "u2", title := "t2", created := "2017/04/03",
             description := "d2", tags := "b" }]
          { pinboard_token := "tok", raindrop_folder := "Imported",
            user_tags := some "@pb", clean_flag := false }).filter
          resultIsOk).length
        ((transformAll
          [{ url := "u1", title := "t1", created := "2017-04-03T15:59:39Z",
             description := "d1", tags := "a" },
           { url := "u2", title := "t2", created := "2017/04/03",
             description := "d2", tags := "b" }]
          { pinboard_token := "tok", raindrop_folder := "Imported",
            user_tags := some "@pb", clean_flag := false }).filter
          (fun r => !resultIsOk r)).length ∧
    (raindropOk
        [{ url := "u1", title := "t1", created := "2017-04-03T15:59:39Z",
           description := "d1", tags := "a" },
         { url := "u2", title := "t2", created := "2017/04/03",
           description := "d2", tags := "b" }]
        { pinboard_token := "tok", raindrop_folder := "Imported",
          user_tags := some "@pb", clean_flag := false }).printed.length =
      2 ∧
    write_file
        [{ url := "u1", folder := "Imported", title := "t1",
           description := "d1", tags := "a @pb",
           created := "2017-04-03T15:59:39Z" }] =
      ["url", "folder", "title", "description", "tags", "created"] ::
        List.map
          (fun r : RaindropBookmark =>
            [r.url, r.folder, r.title, r.description, r.tags, r.created])
          [{ url := "u1", folder := "Imported", title := "t1",
             description := "d1", tags := "a @pb",
             created := "2017-04-03T15:59:39Z" }] ∧
    ([{ url := "u1", folder := "Imported", title := "t1",
        description := "d1", tags := "a @pb",
        created := "2017-04-03T15:59:39Z" }] :
          List RaindropBookmark).length =
      ((transformAll
        [{ url := "u1", title := "t1", created := "2017-04-03T15:59:39Z",
           description := "d1", tags := "a" },
         { url := "u2", title := "t2", created := "2017/04/03",
           description := "d2", tags := "b" }]
        { pinboard_token := "tok", raindrop_folder := "Imported",
          user_tags := some "@pb", clean_flag := false }).filter
        resultIsOk).length :=
  claim9_reporter
    [{ url := "u1", title := "t1", created := "2017-04-03T15:59:39Z",
       description := "d1", tags := "a" },
     { url := "u2", title := "t2", created := "2017/04/03",
       description := "d2", tags := "b" }]
    { pinboard_token := "tok", raindrop_folder := "Imported",
      user_tags := some "@pb", clean_flag := false }
    [{ url := "u1", folder := "Imported", title := "t1",
       description := "d1", tags := "a @pb",
       created := "2017-04-03T15:59:39Z" }]
    (by decide)

/-- C10 (implicit): every element of the valid partition is a success, so
the unwrap applied per element in main never aborts: the unwrap of the
whole partition yields a value and the run ends with the file written. -/
theorem claim10_unwrap_never_aborts (bms : List PinboardBookmark)
    (p : TransformProps) :
    (∀ r ∈ (raindropOk bms p).valid, ∃ b, r = Except.ok b) ∧
    ∃ l, unwrapAll (raindropOk bms p).valid = some l ∧
      mainRun (Except.ok bms) p =
        Except.ok (some (write_file l), (raindropOk bms p).printed) := by
  have hok := valid_all_ok bms p
  constructor
  · intro r hr
    cases r with
    | ok b => exact ⟨b, rfl⟩
    | error e => exact absurd (hok _ hr) (by simp [resultIsOk])
  · rcases unwrapAll_of_all_ok _ hok with ⟨l, hl⟩
    refine ⟨l, hl, ?_⟩
    show Except.ok ((unwrapAll (raindropOk bms p).valid).map write_file,
      (raindropOk bms p).printed) = _
    rw [hl]
    rfl

end P2R
